import Mathlib

/-!
Verification of the revenue-split and payout-ledger accounting core of the
E-learning payment microservice.  JavaScript numbers are embedded as exact
rationals (`ℚ`); `Math.round` is embedded as `jsRound` (floor of `x + 1/2`,
which is exactly JavaScript's rounding rule, ties toward positive infinity).
Database rows are embedded as Lean structures and tables as lists; every
service operation is a pure function from the database state (plus the
operation's inputs and the outcome of the external gateway call, when one is
made) to the new database state and a result.
-/

namespace ELearn

/-- JavaScript `Math.round`: `⌊x + 1/2⌋`, rounding ties toward `+∞`. -/
def jsRound (x : ℚ) : ℤ := ⌊x + 1/2⌋

theorem jsRound_eq_of (x : ℚ) (z : ℤ) (h₁ : (z : ℚ) ≤ x + 1/2)
    (h₂ : x + 1/2 < z + 1) : jsRound x = z := by
  unfold jsRound
  rw [Int.floor_eq_iff]
  exact ⟨h₁, by exact_mod_cast h₂⟩

theorem jsRound_le (x : ℚ) : (jsRound x : ℚ) ≤ x + 1/2 :=
  Int.floor_le _

theorem lt_jsRound (x : ℚ) : x - 1/2 < (jsRound x : ℚ) := by
  have h := Int.lt_floor_add_one (x + 1/2)
  unfold jsRound
  linarith

/-! ## Commission calculator (`calculatePlatformCommission`)

From `src/services/stripeService.js` (tiered variant, identical in
`src/unnamed/part_004`):

* start from the configured base percentage (`PLATFORM_COMMISSION_PERCENTAGE`,
  default 20), reduced by 5 points for `amount >= 500` and by 2 points for
  `amount >= 200`;
* `stripeFee = 0.3 + 0.029 * amount`, `netAmount = amount - stripeFee`;
* `platformCommission = Math.round(netAmount * commissionPercentage / 100)`;
* `educatorEarnings = Math.round(netAmount - platformCommission)` — computed
  from the *unclamped* commission;
* finally `platformCommission = Math.min(Math.max(platformCommission, 1), amount * 0.5)`.
-/

/-- Result record of the revenue split. -/
structure Split where
  platformCommission : ℚ
  educatorEarnings : ℚ
  deriving DecidableEq, Repr

/-- The tier-adjusted commission percentage (source: the two `if` branches on
`amount >= 500` / `amount >= 200`). -/
def commissionPercentage (basePercentage amount : ℚ) : ℚ :=
  if 500 ≤ amount then basePercentage - 5
  else if 200 ≤ amount then basePercentage - 2
  else basePercentage

/-- `const stripeFee = 0.3 + 0.029 * amount`. -/
def stripeFee (amount : ℚ) : ℚ := 3/10 + 29/1000 * amount

/-- `const netAmount = amount - stripeFee`. -/
def netAmount (amount : ℚ) : ℚ := amount - stripeFee amount

/-- `Math.round((netAmount * commissionPercentage) / 100)` — the commission
before clamping. -/
def rawCommission (basePercentage amount : ℚ) : ℤ :=
  jsRound (netAmount amount * commissionPercentage basePercentage amount / 100)

/-- `calculatePlatformCommission(amount, educatorId)` from
`src/services/stripeService.js` lines 372–412.  The `educatorId` argument is
unused by the source (the custom-rate lookup is commented out), so it is
omitted; the configured base percentage is passed explicitly. -/
def calculatePlatformCommission (basePercentage amount : ℚ) : Split :=
  { platformCommission :=
      min (max ((rawCommission basePercentage amount : ℤ) : ℚ) 1) (amount * (1/2))
    educatorEarnings :=
      ((jsRound (netAmount amount - ((rawCommission basePercentage amount : ℤ) : ℚ)) : ℤ) : ℚ) }

/-- The `amount` rule of `paymentValidation` in `src/middleware/validators.js`:
`isFloat({ min: 0.01 })`. -/
def paymentValidationAmountOk (amount : ℚ) : Bool :=
  decide (1/100 ≤ amount)

/-! ### Evaluation lemmas for the calculator at concrete inputs -/

theorem commissionPercentage_small {b a : ℚ} (h : a < 200) :
    commissionPercentage b a = b := by
  unfold commissionPercentage
  rw [if_neg (by linarith), if_neg (by linarith)]

theorem netAmount_def (a : ℚ) : netAmount a = a - (3/10 + 29/1000 * a) := rfl

theorem rawCommission_one : rawCommission 20 1 = 0 := by
  unfold rawCommission
  rw [commissionPercentage_small (by norm_num), netAmount_def]
  exact jsRound_eq_of _ 0 (by norm_num) (by norm_num)

theorem calculatePlatformCommission_one :
    calculatePlatformCommission 20 1 = ⟨1/2, 1⟩ := by
  unfold calculatePlatformCommission
  rw [rawCommission_one, netAmount_def]
  have he : jsRound (1 - (3/10 + 29/1000 * 1) - ((0 : ℤ) : ℚ)) = 1 :=
    jsRound_eq_of _ 1 (by norm_num) (by norm_num)
  rw [he]
  norm_num

/-- **C2** (counterexample): at `grossAmount = 1` (a positive amount) the split
is `platformCommission = 1/2`, `educatorEarnings = 1`, so the claimed bounds
`platformCommission ≥ 1` and `platformCommission + instructorEarnings ≤
grossAmount` are both false. -/
theorem C2_counterexample :
    (0 : ℚ) < 1 ∧
    (calculatePlatformCommission 20 1).platformCommission = 1/2 ∧
    (calculatePlatformCommission 20 1).educatorEarnings = 1 ∧
    ¬(1 ≤ (calculatePlatformCommission 20 1).platformCommission) ∧
    ¬((calculatePlatformCommission 20 1).platformCommission +
        (calculatePlatformCommission 20 1).educatorEarnings ≤ 1) := by
  rw [calculatePlatformCommission_one]
  norm_num

/-- **C2** (amended): for every positive `grossAmount`, with the default base
percentage 20: the commission never exceeds half the gross; it is at least
`min 1 (grossAmount/2)` (so at least `1` once `grossAmount ≥ 2`); the split is
deterministic; and the bound `platformCommission + educatorEarnings ≤
grossAmount` holds once `grossAmount ≥ 7` (it fails for some smaller amounts,
see the counterexample). -/
theorem C2_amended (g : ℚ) (hg : 0 < g) :
    (calculatePlatformCommission 20 g).platformCommission ≤ g * (1/2) ∧
    min 1 (g * (1/2)) ≤ (calculatePlatformCommission 20 g).platformCommission ∧
    (2 ≤ g → 1 ≤ (calculatePlatformCommission 20 g).platformCommission) ∧
    (7 ≤ g → (calculatePlatformCommission 20 g).platformCommission +
        (calculatePlatformCommission 20 g).educatorEarnings ≤ g) ∧
    calculatePlatformCommission 20 g = calculatePlatformCommission 20 g := by
  refine ⟨min_le_right _ _, ?_, ?_, ?_, rfl⟩
  · exact le_min (le_trans (min_le_left 1 _) (le_max_right _ 1)) (min_le_right _ _)
  · intro h2
    apply le_min (le_max_right _ 1)
    linarith
  · intro h7
    -- the effective percentage is 15, 18 or 20; in all cases the unclamped
    -- commission is at least 1, so the clamp keeps it below the raw value
    have hnet : netAmount g = g - (3/10 + 29/1000 * g) := rfl
    have hp : 15 ≤ commissionPercentage 20 g ∧ commissionPercentage 20 g ≤ 20 := by
      unfold commissionPercentage
      split_ifs <;> norm_num
    have hnetlb : 32/5 ≤ netAmount g := by rw [hnet]; linarith
    have hraw1 : 1 ≤ rawCommission 20 g := by
      unfold rawCommission jsRound
      rw [Int.le_floor]
      push_cast
      have : 15 * (32/5) ≤ commissionPercentage 20 g * netAmount g := by
        apply mul_le_mul hp.1 hnetlb (by linarith) (by linarith)
      rw [mul_comm (netAmount g)]
      linarith
    have hraw1' : (1 : ℚ) ≤ ((rawCommission 20 g : ℤ) : ℚ) := by exact_mod_cast hraw1
    have hpc : (calculatePlatformCommission 20 g).platformCommission ≤
        ((rawCommission 20 g : ℤ) : ℚ) := by
      unfold calculatePlatformCommission
      simp only
      rw [max_eq_left hraw1']
      exact min_le_left _ _
    have hee : (calculatePlatformCommission 20 g).educatorEarnings ≤
        netAmount g - ((rawCommission 20 g : ℤ) : ℚ) + 1/2 := by
      unfold calculatePlatformCommission
      simp only
      exact jsRound_le _
    rw [hnet] at hee
    linarith

/-- **C2** (witness): the amended bounds instantiated at `grossAmount = 10`. -/
theorem C2_witness :
    (0 : ℚ) < 10 ∧
    ((calculatePlatformCommission 20 10).platformCommission ≤ 10 * (1/2) ∧
     min 1 ((10 : ℚ) * (1/2)) ≤ (calculatePlatformCommission 20 10).platformCommission ∧
     (2 ≤ (10 : ℚ) → 1 ≤ (calculatePlatformCommission 20 10).platformCommission) ∧
     (7 ≤ (10 : ℚ) → (calculatePlatformCommission 20 10).platformCommission +
         (calculatePlatformCommission 20 10).educatorEarnings ≤ 10) ∧
     calculatePlatformCommission 20 10 = calculatePlatformCommission 20 10) :=
  ⟨by norm_num, C2_amended 10 (by norm_num)⟩

/-! ### C9: no validation of non-positive amounts in the split -/

theorem rawCommission_zero : rawCommission 20 0 = 0 := by
  unfold rawCommission
  rw [commissionPercentage_small (by norm_num), netAmount_def]
  exact jsRound_eq_of _ 0 (by norm_num) (by norm_num)

theorem calculatePlatformCommission_zero :
    calculatePlatformCommission 20 0 = ⟨0, 0⟩ := by
  unfold calculatePlatformCommission
  rw [rawCommission_zero, netAmount_def]
  have he : jsRound (0 - (3/10 + 29/1000 * 0) - ((0 : ℤ) : ℚ)) = 0 :=
    jsRound_eq_of _ 0 (by norm_num) (by norm_num)
  rw [he]
  norm_num

/-- **C9** (counterexample): at `grossAmount = 0` the split operation does not
fail at all — it returns the split `⟨0, 0⟩` (the source performs no amount
validation). -/
theorem C9_counterexample :
    calculatePlatformCommission 20 0 = ⟨0, 0⟩ :=
  calculatePlatformCommission_zero

/-- **C9** (amended): `calculatePlatformCommission` performs no amount
validation: for every `grossAmount ≤ 0` it returns a split whose commission is
`grossAmount/2 ≤ 0` instead of failing; a non-positive amount is rejected only
by the HTTP-layer validator (`isFloat({min: 0.01})`). -/
theorem C9_amended (g : ℚ) (hg : g ≤ 0) :
    (calculatePlatformCommission 20 g).platformCommission = g * (1/2) ∧
    (calculatePlatformCommission 20 g).platformCommission ≤ 0 ∧
    paymentValidationAmountOk g = false := by
  have hpc : (calculatePlatformCommission 20 g).platformCommission = g * (1/2) := by
    unfold calculatePlatformCommission
    simp only
    apply min_eq_right
    calc g * (1/2) ≤ 1 := by linarith
    _ ≤ max ((rawCommission 20 g : ℤ) : ℚ) 1 := le_max_right _ _
  refine ⟨hpc, by rw [hpc]; linarith, ?_⟩
  simp only [paymentValidationAmountOk, decide_eq_false_iff_not]
  intro h
  linarith

/-- **C9** (witness): the amended statement instantiated at `grossAmount = -10`. -/
theorem C9_witness :
    (-10 : ℚ) ≤ 0 ∧
    ((calculatePlatformCommission 20 (-10)).platformCommission = (-10) * (1/2) ∧
     (calculatePlatformCommission 20 (-10)).platformCommission ≤ 0 ∧
     paymentValidationAmountOk (-10) = false) :=
  ⟨by norm_num, C9_amended (-10) (by norm_num)⟩

/-! ## The transaction ledger

`Transaction` mirrors the Prisma model of `prisma/migrations/.../migration.sql`
(identifiers and timestamps are embedded as `Nat`, money as `ℚ`).  The
`metadata`, `description` and `stripeChargeId` columns are omitted: no claim
reads them. -/

inductive TxStatus
  | PENDING | COMPLETED | FAILED | REFUNDED | DISPUTED
  deriving DecidableEq, Repr

inductive TxType
  | PAYMENT | REFUND
  deriving DecidableEq, Repr

structure Transaction where
  id : Nat
  amount : ℚ
  currency : String
  status : TxStatus
  type : TxType
  platformCommission : ℚ
  educatorEarnings : ℚ
  userId : String
  courseId : Nat
  educatorId : Nat
  refundId : Option Nat := none
  payoutId : Option Nat := none
  createdAt : Nat
  deriving Repr

/-- Result shape of `getEducatorPendingEarnings` (the `earningsByMonth`
breakdown is omitted: no claim reads it).  `oldestTransaction` is exactly what
the source returns: the raw SQL `MIN`, with no zero default. -/
structure PendingEarnings where
  pendingAmount : ℚ
  pendingTransactions : Nat
  oldestTransaction : Option Nat
  deriving Repr

/-- The `WHERE` clause of the pending-earnings query in
`src/services/payoutService.js` lines 15–28: rows of the educator with
`payoutId IS NULL` that are either a COMPLETED PAYMENT or a REFUNDED-status
REFUND. -/
def matchesPendingWhere (eid : Nat) (t : Transaction) : Bool :=
  decide (t.educatorId = eid ∧ t.payoutId = none ∧
    ((t.type = TxType.PAYMENT ∧ t.status = TxStatus.COMPLETED) ∨
     (t.type = TxType.REFUND ∧ t.status = TxStatus.REFUNDED)))

/-- `getEducatorPendingEarnings` (`src/services/payoutService.js` 12–62):
`pendingAmount` sums `educatorEarnings` over COMPLETED PAYMENT rows and
subtracts `ABS(educatorEarnings)` over REFUNDED-status REFUND rows;
`pendingTransactions` counts the unsettled COMPLETED PAYMENT rows; and
`oldestTransaction` is the SQL `MIN(createdAt)` over those rows (null when
there are none). -/
def getEducatorPendingEarnings (txs : List Transaction) (eid : Nat) : PendingEarnings :=
  let rows := txs.filter (matchesPendingWhere eid)
  let paySum := ((rows.filter (fun t =>
      decide (t.type = TxType.PAYMENT ∧ t.status = TxStatus.COMPLETED))).map
      (fun t => t.educatorEarnings)).sum
  let refSum := ((rows.filter (fun t =>
      decide (t.type = TxType.REFUND ∧ t.status = TxStatus.REFUNDED))).map
      (fun t => |t.educatorEarnings|)).sum
  let pendingRows := rows.filter (fun t =>
      decide (t.type = TxType.PAYMENT ∧ t.status = TxStatus.COMPLETED ∧
        t.payoutId = none))
  { pendingAmount := paySum - refSum
    pendingTransactions := pendingRows.length
    oldestTransaction := (pendingRows.map (fun t => t.createdAt)).min? }

/-! ## Refund processing

Both `processRefund` implementations (`src/services/paymentService.js`
137–239 and the tiered variant of `src/services/stripeService.js` /
`src/unnamed/part_004`) perform the same two database writes, as two separate
sequential statements (not inside a `prisma.$transaction`):

1. `prisma.transaction.create` of the new REFUND row — with `status:
   'COMPLETED'`, the negated proportionally-scaled commission/earnings, and a
   `metadata` back-reference;
2. `prisma.transaction.update` of the original row to `status: 'REFUNDED'`
   with `refundId` set.

The `updateFails` parameter injects a storage failure between the two writes
(the create has committed, the update throws); `updateFails = false` is the
normal path. -/

inductive RefundError
  | TransactionNotFound | AlreadyRefunded | DbWriteFailed
  deriving DecidableEq, Repr

/-- `const refundAmount = amount || originalTransaction.amount` — JavaScript
`||` falls through on `0` as well as on a missing value. -/
def effectiveRefundAmount (amount? : Option ℚ) (origAmount : ℚ) : ℚ :=
  match amount? with
  | none => origAmount
  | some a => if a = 0 then origAmount else a

namespace PaymentService

/-- The REFUND row built by `prisma.transaction.create` in
`src/services/paymentService.js` lines 168–187. -/
def mkRefundTx (orig : Transaction) (newId now : Nat) (refundAmount : ℚ) : Transaction :=
  { id := newId
    amount := refundAmount
    currency := orig.currency
    status := TxStatus.COMPLETED
    type := TxType.REFUND
    platformCommission := -(orig.platformCommission * (refundAmount / orig.amount))
    educatorEarnings := -(orig.educatorEarnings * (refundAmount / orig.amount))
    userId := orig.userId
    courseId := orig.courseId
    educatorId := orig.educatorId
    createdAt := now }

/-- `processRefund` of `src/services/paymentService.js`: load the original,
fail `NotFound` / `AlreadyRefunded`, create the REFUND row, then (second,
separate write) mark the original REFUNDED with `refundId` set. -/
def processRefund (txs : List Transaction) (newId now transactionId : Nat)
    (amount? : Option ℚ) (updateFails : Bool) :
    List Transaction × Except RefundError Transaction :=
  match txs.find? (fun t => t.id == transactionId) with
  | none => (txs, Except.error RefundError.TransactionNotFound)
  | some orig =>
    if orig.status = TxStatus.REFUNDED then
      (txs, Except.error RefundError.AlreadyRefunded)
    else
      let refundTx := mkRefundTx orig newId now (effectiveRefundAmount amount? orig.amount)
      let txs1 := txs ++ [refundTx]
      if updateFails then (txs1, Except.error RefundError.DbWriteFailed)
      else
        (txs1.map (fun t =>
          if t.id == transactionId then
            { t with status := TxStatus.REFUNDED, refundId := some refundTx.id }
          else t),
         Except.ok refundTx)

end PaymentService

namespace TieredService

/-- The REFUND row built by the tiered variant (`src/unnamed/part_004` lines
300–321): identical to the other variant except that the stored `userId` is
the original payer's id with `"_REFUND"` appended. -/
def mkRefundTx (orig : Transaction) (newId now : Nat) (refundAmount : ℚ) : Transaction :=
  { id := newId
    amount := refundAmount
    currency := orig.currency
    status := TxStatus.COMPLETED
    type := TxType.REFUND
    platformCommission := -(orig.platformCommission * (refundAmount / orig.amount))
    educatorEarnings := -(orig.educatorEarnings * (refundAmount / orig.amount))
    userId := orig.userId ++ "_REFUND"
    courseId := orig.courseId
    educatorId := orig.educatorId
    createdAt := now }

/-- `processRefund` of the tiered payment-service variant
(`src/unnamed/part_004` lines 268–330). -/
def processRefund (txs : List Transaction) (newId now transactionId : Nat)
    (amount? : Option ℚ) (updateFails : Bool) :
    List Transaction × Except RefundError Transaction :=
  match txs.find? (fun t => t.id == transactionId) with
  | none => (txs, Except.error RefundError.TransactionNotFound)
  | some orig =>
    if orig.status = TxStatus.REFUNDED then
      (txs, Except.error RefundError.AlreadyRefunded)
    else
      let refundTx := mkRefundTx orig newId now (effectiveRefundAmount amount? orig.amount)
      let txs1 := txs ++ [refundTx]
      if updateFails then (txs1, Except.error RefundError.DbWriteFailed)
      else
        (txs1.map (fun t =>
          if t.id == transactionId then
            { t with status := TxStatus.REFUNDED, refundId := some refundTx.id }
          else t),
         Except.ok refundTx)

end TieredService

/-- A COMPLETED PAYMENT row as persisted by `processPayment` (educator 1,
payer `"u1"`, course 1). -/
def samplePayment (id : Nat) (amount pc ee : ℚ) (createdAt : Nat) : Transaction :=
  { id := id
    amount := amount
    currency := "USD"
    status := TxStatus.COMPLETED
    type := TxType.PAYMENT
    platformCommission := pc
    educatorEarnings := ee
    userId := "u1"
    courseId := 1
    educatorId := 1
    createdAt := createdAt }

/-! ### C1: the pending-earnings query never matches the refund rows the
refund path writes -/

/-- Ledger for C1: educator 1 receives an unsettled payment of earnings 50
(id 1) and one of earnings 80 (id 2); the second is then fully refunded by
`processRefund` (which writes the REFUND row with status COMPLETED and flips
the original to REFUNDED). -/
def C1run : List Transaction × Except RefundError Transaction :=
  PaymentService.processRefund
    [samplePayment 1 100 10 50 1, samplePayment 2 100 20 80 2] 3 5 2 none false

/-- **C1** (code-bug exhibit): after the refund, the ledger holds a REFUND row
with `educatorEarnings = -80`, `payoutId = null` and status COMPLETED — but
`getEducatorPendingEarnings` reports `pendingAmount = 50`: the query's
`type = 'REFUND' AND status = 'REFUNDED'` filter never matches the refund rows
`processRefund` writes (they are created with status COMPLETED), so refunds
are never deducted (the claimed sum over payment and refund rows would be
`50 - 80 = -30`).  Moreover, with no matching rows, `oldestTransaction` is
SQL NULL (`none`), not a zeroed value. -/
theorem C1_refunds_never_deducted :
    (C1run.1.filter (fun t => t.type == TxType.REFUND)).map
        (fun t => (t.status, t.educatorEarnings, t.payoutId))
      = [(TxStatus.COMPLETED, -80, none)] ∧
    (getEducatorPendingEarnings C1run.1 1).pendingAmount = 50 ∧
    (getEducatorPendingEarnings [] 1).pendingAmount = 0 ∧
    (getEducatorPendingEarnings [] 1).pendingTransactions = 0 ∧
    (getEducatorPendingEarnings [] 1).oldestTransaction = none := by
  refine ⟨?_, ?_, ?_, ?_, ?_⟩ <;>
    simp +decide [C1run, PaymentService.processRefund, PaymentService.mkRefundTx,
      effectiveRefundAmount, getEducatorPendingEarnings, matchesPendingWhere,
      samplePayment, List.find?, List.filter]

/-! ### C3: the two refund writes are not one atomic unit -/

/-- Run of C3: a full refund of payment 1 during which the second write (the
original-row update) fails after the first (the refund-row create) committed. -/
def C3run : List Transaction × Except RefundError Transaction :=
  PaymentService.processRefund [samplePayment 1 100 20 80 0] 2 5 1 none true

/-- **C3** (code-bug exhibit): the source performs the refund-row create and
the original-row update as two separate sequential writes with no enclosing
transaction, so when the second write fails the database is left
half-refunded: the call errors, yet a REFUND row exists while the original
transaction still has status COMPLETED and no `refundId`. -/
theorem C3_half_refunded_state :
    C3run.2 = Except.error RefundError.DbWriteFailed ∧
    (C3run.1.filter (fun t => t.type == TxType.REFUND)).length = 1 ∧
    (C3run.1.find? (fun t => t.id == 1)).map (fun t => t.status)
      = some TxStatus.COMPLETED ∧
    (C3run.1.find? (fun t => t.id == 1)).map (fun t => t.refundId) = some none := by
  refine ⟨?_, ?_, ?_, ?_⟩ <;>
    simp +decide [C3run, PaymentService.processRefund, PaymentService.mkRefundTx,
      effectiveRefundAmount, samplePayment, List.find?, List.filter]

/-! ### C5: proportional scaling of refund commission and earnings -/

/-- **C5**: the persisted REFUND row carries the negation of the original
payment's `platformCommission` and `educatorEarnings` scaled by
`refundAmount / originalAmount`; the ratio of refunded to original earnings
equals the ratio of refunded to original amount exactly (the source multiplies
unrounded), and a full refund's `|educatorEarnings|` equals the original's
`educatorEarnings`. -/
theorem C5_refund_scaling
    (txs : List Transaction) (newId now tid : Nat) (amount? : Option ℚ)
    (orig : Transaction) (db' : List Transaction) (r : Transaction)
    (hfind : txs.find? (fun t => t.id == tid) = some orig)
    (hamt : 0 < orig.amount)
    (hrun : PaymentService.processRefund txs newId now tid amount? false
      = (db', Except.ok r)) :
    r.platformCommission = -(orig.platformCommission * (r.amount / orig.amount)) ∧
    r.educatorEarnings = -(orig.educatorEarnings * (r.amount / orig.amount)) ∧
    (orig.educatorEarnings ≠ 0 →
      (-r.educatorEarnings) / orig.educatorEarnings = r.amount / orig.amount) ∧
    (r.amount = orig.amount → 0 ≤ orig.educatorEarnings →
      |r.educatorEarnings| = orig.educatorEarnings) := by
  unfold PaymentService.processRefund at hrun
  split at hrun
  · next heq => rw [hfind] at heq; cases heq
  · next orig' heq =>
    rw [hfind] at heq
    injection heq with h
    subst h
    split at hrun
    · simp at hrun
    · simp only [Bool.false_eq_true, if_false, Prod.mk.injEq, Except.ok.injEq] at hrun
      obtain ⟨-, hr⟩ := hrun
      subst hr
      simp only [PaymentService.mkRefundTx]
      refine ⟨trivial, trivial, ?_, ?_⟩
      · intro hee
        rw [neg_neg, mul_comm, mul_div_assoc, div_self hee, mul_one]
      · intro hfull hee0
        rw [hfull, div_self (ne_of_gt hamt), mul_one, abs_neg, abs_of_nonneg hee0]

/-- The original payment used by the C5 and C10 witnesses. -/
def C5tx : Transaction := samplePayment 1 100 20 80 0

/-- The refund row `processRefund` creates for a full refund of `C5tx`. -/
def C5r : Transaction :=
  PaymentService.mkRefundTx C5tx 2 5 (effectiveRefundAmount none C5tx.amount)

/-- **C5** (witness): the scaling law instantiated on a concrete full refund of
a 100-unit payment with earnings 80. -/
theorem C5_refund_scaling_witness :
    (0 : ℚ) < C5tx.amount ∧
    (C5r.platformCommission = -(C5tx.platformCommission * (C5r.amount / C5tx.amount)) ∧
     C5r.educatorEarnings = -(C5tx.educatorEarnings * (C5r.amount / C5tx.amount)) ∧
     (C5tx.educatorEarnings ≠ 0 →
       (-C5r.educatorEarnings) / C5tx.educatorEarnings = C5r.amount / C5tx.amount) ∧
     (C5r.amount = C5tx.amount → 0 ≤ C5tx.educatorEarnings →
       |C5r.educatorEarnings| = C5tx.educatorEarnings)) :=
  ⟨by norm_num [C5tx, samplePayment],
   C5_refund_scaling [C5tx] 2 5 1 none C5tx
     (PaymentService.processRefund [C5tx] 2 5 1 none false).1 C5r rfl
     (by norm_num [C5tx, samplePayment]) rfl⟩

/-! ### C10: the tiered variant mutates the stored `userId` of refund rows -/

/-- **C10**: every REFUND row persisted by the tiered variant's
`processRefund` stores the original transaction's `userId` with `"_REFUND"`
appended, while `courseId`, `educatorId` and `currency` are copied unchanged. -/
theorem C10_refund_userId_mutated
    (txs : List Transaction) (newId now tid : Nat) (amount? : Option ℚ)
    (orig : Transaction) (db' : List Transaction) (r : Transaction)
    (hfind : txs.find? (fun t => t.id == tid) = some orig)
    (hrun : TieredService.processRefund txs newId now tid amount? false
      = (db', Except.ok r)) :
    r.userId = orig.userId ++ "_REFUND" ∧
    r.courseId = orig.courseId ∧
    r.educatorId = orig.educatorId ∧
    r.currency = orig.currency := by
  unfold TieredService.processRefund at hrun
  split at hrun
  · next heq => rw [hfind] at heq; cases heq
  · next orig' heq =>
    rw [hfind] at heq
    injection heq with h
    subst h
    split at hrun
    · simp at hrun
    · simp only [Bool.false_eq_true, if_false, Prod.mk.injEq, Except.ok.injEq] at hrun
      obtain ⟨-, hr⟩ := hrun
      subst hr
      exact ⟨rfl, rfl, rfl, rfl⟩

/-- The refund row the tiered variant creates for a full refund of `C5tx`. -/
def C10r : Transaction :=
  TieredService.mkRefundTx C5tx 2 5 (effectiveRefundAmount none C5tx.amount)

/-- **C10** (witness): the field-copy law instantiated on a concrete full
refund; the stored payer id is `"u1_REFUND"`. -/
theorem C10_refund_userId_mutated_witness :
    (C10r.userId = C5tx.userId ++ "_REFUND" ∧
     C10r.courseId = C5tx.courseId ∧
     C10r.educatorId = C5tx.educatorId ∧
     C10r.currency = C5tx.currency) ∧
    C10r.userId = "u1_REFUND" :=
  ⟨C10_refund_userId_mutated [C5tx] 2 5 1 none C5tx
     (TieredService.processRefund [C5tx] 2 5 1 none false).1 C10r rfl rfl,
   rfl⟩

/-! ## The payout settlement engine (`src/services/payoutService.js`)

`payoutNumber` (`PAYOUT-<year>-<6-digit-seq>`) is embedded as the pair
`payoutYear`/`payoutSeq`; the source's count of existing payouts whose
number starts with `PAYOUT-<year>-` is the count of payouts with that
`payoutYear`.  `paymentMethod` (an enum-like string in the source) is embedded
as an inductive type; `bankDetails`, `metadata` and `currency` are omitted
from `Payout`: no claim reads them. -/

inductive PayoutStatus
  | PENDING | PROCESSING | COMPLETED | FAILED | CANCELLED
  deriving DecidableEq, Repr

inductive PaymentMethod
  | bank_transfer | paypal | stripe | express | other
  deriving DecidableEq, Repr

structure Payout where
  id : Nat
  payoutYear : Nat
  payoutSeq : Nat
  educatorId : Nat
  amount : ℚ
  status : PayoutStatus
  processingFee : ℚ
  paymentMethod : PaymentMethod
  periodStart : Nat
  periodEnd : Nat
  requestedAt : Nat
  processedAt : Option Nat := none
  notes : String := ""
  deriving Repr

/-- The database state: the `Transaction` and `Payout` tables. -/
structure DB where
  transactions : List Transaction
  payouts : List Payout
  deriving Repr

/-- Error taxonomy of the payout operations (the source raises `AppError`s
with the corresponding messages). -/
inductive PayoutError
  | ExistingPendingPayout
  | InsufficientBalance
  | PayoutNotFound
  | InvalidPayoutState (s : PayoutStatus)
  | Unauthorized
  | GatewayFailure
  deriving DecidableEq, Repr

/-- `calculateProcessingFee` (`src/services/payoutService.js` 543–565). -/
def calculateProcessingFee (amount : ℚ) (m : PaymentMethod) : ℚ :=
  match m with
  | PaymentMethod.paypal => max (29/1000 * amount + 3/10) 1
  | PaymentMethod.stripe => max (25/1000 * amount) 1
  | PaymentMethod.bank_transfer => if 1000 ≤ amount then 0 else 5/2
  | PaymentMethod.express => max (35/1000 * amount) 5
  | PaymentMethod.other => max (2/100 * amount) 1

/-- `prisma.payout.findUnique({ where: { id } })`. -/
def findPayout (db : DB) (pid : Nat) : Option Payout :=
  db.payouts.find? (fun p => p.id == pid)

/-- The `findFirst` guard of `requestPayout`: an existing payout of this
educator with status PENDING. -/
def findPendingPayout (db : DB) (eid : Nat) : Option Payout :=
  db.payouts.find? (fun p => decide (p.educatorId = eid ∧ p.status = PayoutStatus.PENDING))

/-- `requestPayout` (`src/services/payoutService.js` 70–161): reject when a
PENDING payout exists; reject when the pending balance (per
`getEducatorPendingEarnings`) is below the requested amount; otherwise create
a PENDING payout with the next sequential number for the year, the
method-specific processing fee, and `periodStart` the oldest unsettled
transaction's `createdAt` (or now). -/
def requestPayout (db : DB) (newId now year eid : Nat) (amount : ℚ)
    (paymentMethod : PaymentMethod) : DB × Except PayoutError Payout :=
  match findPendingPayout db eid with
  | some _ => (db, Except.error PayoutError.ExistingPendingPayout)
  | none =>
    let pendingAmount := (getEducatorPendingEarnings db.transactions eid).pendingAmount
    if pendingAmount < amount then (db, Except.error PayoutError.InsufficientBalance)
    else
      let payoutCount := (db.payouts.filter (fun p => p.payoutYear == year)).length
      let periodStart := ((db.transactions.filter (fun t =>
          decide (t.educatorId = eid ∧ t.payoutId = none ∧
            t.status = TxStatus.COMPLETED))).map (fun t => t.createdAt)).min?
      let payout : Payout :=
        { id := newId
          payoutYear := year
          payoutSeq := payoutCount + 1
          educatorId := eid
          amount := amount
          status := PayoutStatus.PENDING
          processingFee := calculateProcessingFee amount paymentMethod
          paymentMethod := paymentMethod
          periodStart := periodStart.getD now
          periodEnd := now
          requestedAt := now }
      ({ db with payouts := db.payouts ++ [payout] }, Except.ok payout)

/-- Stable insertion step for Prisma's `orderBy: { createdAt: 'asc' }`. -/
def insertByCreatedAt (x : Transaction) : List Transaction → List Transaction
  | [] => [x]
  | y :: ys =>
    if y.createdAt ≤ x.createdAt then y :: insertByCreatedAt x ys
    else x :: y :: ys

/-- Stable sort by `createdAt` ascending (ties keep insertion order, matching
a database scan). -/
def orderByCreatedAtAsc : List Transaction → List Transaction
  | [] => []
  | x :: xs => insertByCreatedAt x (orderByCreatedAtAsc xs)

/-- The candidate rows of `processPayout`'s allocation query: the educator's
transactions with `payoutId: null` and `status: 'COMPLETED'` (of both kinds),
oldest first. -/
def unsettledCompleted (db : DB) (eid : Nat) : List Transaction :=
  orderByCreatedAtAsc (db.transactions.filter (fun t =>
    decide (t.educatorId = eid ∧ t.payoutId = none ∧ t.status = TxStatus.COMPLETED)))

/-- The allocation loop of `processPayout` (lines 200–219): walk the candidate
rows oldest first, adding `educatorEarnings` for PAYMENT rows and subtracting
`|educatorEarnings|` for REFUND rows, collecting every touched id, and stop as
soon as the running total reaches `payout.amount`.  Returns the collected ids
and the final running total.  There is no check that the amount was actually
reached when the rows run out. -/
def allocateLoop (amount : ℚ) : List Transaction → ℚ → List Nat × ℚ
  | [], total => ([], total)
  | tx :: rest, total =>
    let total' :=
      if tx.type = TxType.PAYMENT then total + tx.educatorEarnings
      else total - |tx.educatorEarnings|
    if amount ≤ total' then ([tx.id], total')
    else
      (tx.id :: (allocateLoop amount rest total').1, (allocateLoop amount rest total').2)

/-- The `status: 'PROCESSING'` update of `processPayout`. -/
def setPayoutProcessing (db : DB) (pid : Nat) : DB :=
  { db with payouts := db.payouts.map (fun p =>
      if p.id == pid then { p with status := PayoutStatus.PROCESSING } else p) }

/-- The single `prisma.$transaction` of `processPayout`: set `payoutId` on all
collected transactions and mark the payout COMPLETED with `processedAt`. -/
def tagAndComplete (db : DB) (pid now : Nat) (ids : List Nat) : DB :=
  { transactions := db.transactions.map (fun t =>
      if ids.contains t.id then { t with payoutId := some pid } else t)
    payouts := db.payouts.map (fun p =>
      if p.id == pid then
        { p with status := PayoutStatus.COMPLETED, processedAt := some now }
      else p) }

/-- The catch-branch update of `processPayout`: mark the payout FAILED and
append the failure reason to `notes`. -/
def setPayoutFailed (db : DB) (pid : Nat) (msg : String) : DB :=
  { db with payouts := db.payouts.map (fun p =>
      if p.id == pid then
        { p with status := PayoutStatus.FAILED,
                 notes := (if p.notes = "" then "" else p.notes ++ "\n") ++
                   "Failed: " ++ msg }
      else p) }

/-- `processPayout` (`src/services/payoutService.js` 169–339): not-found and
non-PENDING guards; select and accumulate unsettled transactions; write
PROCESSING; call the external transfer (`gatewayOk` is its outcome); on
success atomically tag the collected transactions and mark COMPLETED; on
failure mark FAILED (no tagging). -/
def processPayout (db : DB) (pid now : Nat) (gatewayOk : Bool) :
    DB × Except PayoutError Payout :=
  match findPayout db pid with
  | none => (db, Except.error PayoutError.PayoutNotFound)
  | some payout =>
    if payout.status = PayoutStatus.PENDING then
      let ids := (allocateLoop payout.amount (unsettledCompleted db payout.educatorId) 0).1
      let db1 := setPayoutProcessing db pid
      if gatewayOk then
        (tagAndComplete db1 pid now ids,
         Except.ok { payout with status := PayoutStatus.COMPLETED, processedAt := some now })
      else
        (setPayoutFailed db1 pid "processing failed",
         Except.error PayoutError.GatewayFailure)
    else (db, Except.error (PayoutError.InvalidPayoutState payout.status))

/-- The sequence of database states written by one `processPayout` call, in
order (empty when a guard rejects the call before any write): first the
PROCESSING update, then the COMPLETED-with-tagging or FAILED write. -/
def processPayoutTrace (db : DB) (pid now : Nat) (gatewayOk : Bool) : List DB :=
  match findPayout db pid with
  | none => []
  | some payout =>
    if payout.status = PayoutStatus.PENDING then
      let ids := (allocateLoop payout.amount (unsettledCompleted db payout.educatorId) 0).1
      let db1 := setPayoutProcessing db pid
      if gatewayOk then [db1, tagAndComplete db1 pid now ids]
      else [db1, setPayoutFailed db1 pid "processing failed"]
    else []

/-- `cancelPayout` (`src/services/payoutService.js` 478–535): not-found guard,
PENDING-only guard, then the authorization check (educator may cancel only
their own payout), then the CANCELLED update with an audit line appended to
`notes`. -/
def cancelPayout (db : DB) (pid uid : Nat) (isAdmin : Bool) :
    DB × Except PayoutError Payout :=
  match findPayout db pid with
  | none => (db, Except.error PayoutError.PayoutNotFound)
  | some payout =>
    if payout.status = PayoutStatus.PENDING then
      if !isAdmin && payout.educatorId != uid then
        (db, Except.error PayoutError.Unauthorized)
      else
        ({ db with payouts := db.payouts.map (fun p =>
            if p.id == pid then
              { p with status := PayoutStatus.CANCELLED,
                       notes := (if p.notes = "" then "" else p.notes ++ "\n") ++
                         "Cancelled" }
            else p) },
         Except.ok { payout with status := PayoutStatus.CANCELLED })
    else (db, Except.error (PayoutError.InvalidPayoutState payout.status))

/-! ### C6: greedy oldest-first allocation on the 40/35/30 scenario -/

/-- C6 start state: educator 1 has three unsettled COMPLETED PAYMENT
transactions with `educatorEarnings` 40, 35, 30, oldest first, and no
refunds. -/
def C6db0 : DB :=
  { transactions :=
      [samplePayment 1 100 10 40 1, samplePayment 2 100 10 35 2,
       samplePayment 3 100 10 30 3]
    payouts := [] }

/-- `requestPayout(amount=60)` on the C6 state (payout id 10). -/
def C6req : DB × Except PayoutError Payout :=
  requestPayout C6db0 10 100 2024 1 60 PaymentMethod.bank_transfer

/-- `processPayout` of payout 10 with a successful transfer. -/
def C6run : DB × Except PayoutError Payout :=
  processPayout C6req.1 10 200 true

/-- The PENDING payout created by the C6 request. -/
def C6payout : Payout :=
  { id := 10
    payoutYear := 2024
    payoutSeq := 1
    educatorId := 1
    amount := 60
    status := PayoutStatus.PENDING
    processingFee := 5/2
    paymentMethod := PaymentMethod.bank_transfer
    periodStart := 1
    periodEnd := 100
    requestedAt := 100 }

/-- **C6**: the request is accepted as a PENDING payout, and processing tags
exactly the two oldest transactions (40 + 35 = 75 ≥ 60) with the payout's id,
leaves the third untagged, and completes the payout. -/
theorem C6_greedy_allocation :
    C6req.1.payouts.map (fun p => (p.id, p.status)) = [(10, PayoutStatus.PENDING)] ∧
    (allocateLoop 60 (unsettledCompleted C6req.1 1) 0).1 = [1, 2] ∧
    C6run.1.transactions.map (fun t => (t.id, t.payoutId))
      = [(1, some 10), (2, some 10), (3, none)] ∧
    C6run.1.payouts.map (fun p => (p.id, p.status)) = [(10, PayoutStatus.COMPLETED)] := by
  have h1 : C6req = ({ transactions := C6db0.transactions, payouts := [C6payout] },
      Except.ok C6payout) := by
    simp +decide [C6req, C6db0, requestPayout, findPendingPayout,
      getEducatorPendingEarnings, matchesPendingWhere, samplePayment,
      calculateProcessingFee, C6payout, List.min?]
    norm_num
  have h2 : unsettledCompleted C6req.1 1
      = [samplePayment 1 100 10 40 1, samplePayment 2 100 10 35 2,
         samplePayment 3 100 10 30 3] := by
    rw [h1]
    simp +decide [unsettledCompleted, C6db0, orderByCreatedAtAsc, insertByCreatedAt,
      samplePayment]
  have h3 : allocateLoop 60 (unsettledCompleted C6req.1 1) 0 = ([1, 2], 75) := by
    rw [h2]
    simp [allocateLoop, samplePayment]
    norm_num
  have h4 : C6run.1 = tagAndComplete (setPayoutProcessing C6req.1 10) 10 200 [1, 2] := by
    have hfind : findPayout C6req.1 10 = some C6payout := by
      rw [h1]; rfl
    simp [C6run, processPayout, hfind, C6payout, h3]
  refine ⟨?_, ?_, ?_, ?_⟩
  · rw [h1]; simp [C6payout]
  · rw [h3]
  · rw [h4, h1]
    simp +decide [tagAndComplete, setPayoutProcessing, C6db0, samplePayment, C6payout]
  · rw [h4, h1]
    simp +decide [tagAndComplete, setPayoutProcessing, C6db0, samplePayment, C6payout]

/-! ### C4: no settlement-time balance check in `processPayout` -/

/-- C4 start state: educator 1 has one unsettled payment with earnings 100. -/
def C4db0 : DB :=
  { transactions := [samplePayment 1 100 20 100 1], payouts := [] }

/-- `requestPayout(amount=60)` while the balance is still 100. -/
def C4req : DB × Except PayoutError Payout :=
  requestPayout C4db0 10 50 2024 1 60 PaymentMethod.bank_transfer

/-- The payment is then fully refunded between request and processing. -/
def C4db1 : DB :=
  { transactions := (PaymentService.processRefund C4db0.transactions 2 60 1 none false).1
    payouts := C4req.1.payouts }

/-- `processPayout` of payout 10 after the refund, with a successful transfer. -/
def C4run : DB × Except PayoutError Payout :=
  processPayout C4db1 10 70 true

/-- The PENDING payout created by the C4 request. -/
def C4payout : Payout :=
  { id := 10
    payoutYear := 2024
    payoutSeq := 1
    educatorId := 1
    amount := 60
    status := PayoutStatus.PENDING
    processingFee := 5/2
    paymentMethod := PaymentMethod.bank_transfer
    periodStart := 1
    periodEnd := 50
    requestedAt := 50 }

/-- **C4** (code-bug exhibit): at processing time the educator's unsettled
balance (0 by the source's own query; the allocation loop's running total is
even `-100`) is below the payout amount 60, yet `processPayout` performs no
settlement-time balance check: it completes the payout, tagging only the
refund row — a negative allocation, reported as success. -/
theorem C4_allocation_shortfall_completes :
    (getEducatorPendingEarnings C4db1.transactions 1).pendingAmount < 60 ∧
    (allocateLoop 60 (unsettledCompleted C4db1 1) 0).2 = -100 ∧
    (∃ q, C4run.2 = Except.ok q) ∧
    C4run.1.payouts.map (fun p => (p.id, p.status)) = [(10, PayoutStatus.COMPLETED)] ∧
    C4run.1.transactions.map (fun t => (t.id, t.type, t.payoutId))
      = [(1, TxType.PAYMENT, none), (2, TxType.REFUND, some 10)] := by
  have hreq : C4req = ({ transactions := C4db0.transactions, payouts := [C4payout] },
      Except.ok C4payout) := by
    simp +decide [C4req, C4db0, requestPayout, findPendingPayout,
      getEducatorPendingEarnings, matchesPendingWhere, samplePayment,
      calculateProcessingFee, C4payout, List.min?]
  have htx : C4db1.transactions
      = [{ samplePayment 1 100 20 100 1 with
            status := TxStatus.REFUNDED, refundId := some 2 },
         PaymentService.mkRefundTx (samplePayment 1 100 20 100 1) 2 60 100] := by
    simp +decide [C4db1, C4db0, PaymentService.processRefund, PaymentService.mkRefundTx,
      effectiveRefundAmount, samplePayment, List.find?]
  have hpo : C4db1.payouts = [C4payout] := by
    rw [show C4db1.payouts = C4req.1.payouts from rfl, hreq]
  have hbal : (getEducatorPendingEarnings C4db1.transactions 1).pendingAmount = 0 := by
    rw [htx]
    simp +decide [getEducatorPendingEarnings, matchesPendingWhere,
      PaymentService.mkRefundTx, samplePayment]
  have hcand : unsettledCompleted C4db1 1
      = [PaymentService.mkRefundTx (samplePayment 1 100 20 100 1) 2 60 100] := by
    unfold unsettledCompleted
    rw [htx]
    simp +decide [orderByCreatedAtAsc, insertByCreatedAt,
      PaymentService.mkRefundTx, samplePayment]
  have halloc : allocateLoop 60 (unsettledCompleted C4db1 1) 0 = ([2], -100) := by
    rw [hcand]
    simp [allocateLoop, PaymentService.mkRefundTx, samplePayment]
  have hfind : findPayout C4db1 10 = some C4payout := by
    unfold findPayout
    rw [hpo]
    rfl
  have hrun : C4run.1 = tagAndComplete (setPayoutProcessing C4db1 10) 10 70 [2] ∧
      C4run.2 = Except.ok { C4payout with
        status := PayoutStatus.COMPLETED, processedAt := some 70 } := by
    constructor <;> simp [C4run, processPayout, hfind, C4payout, halloc]
  refine ⟨by rw [hbal]; norm_num, by rw [halloc], ⟨_, hrun.2⟩, ?_, ?_⟩
  · rw [hrun.1]
    unfold tagAndComplete setPayoutProcessing
    rw [hpo]
    simp +decide [C4payout]
  · rw [hrun.1]
    unfold tagAndComplete setPayoutProcessing
    rw [htx]
    simp +decide [PaymentService.mkRefundTx, samplePayment]

/-! ### C7: the payout status state machine -/

/-- The status of payout `pid` in a payout table (via the same `find?` as
`findPayout`). -/
def statusIn (l : List Payout) (pid : Nat) : Option PayoutStatus :=
  (l.find? (fun p => p.id == pid)).map (fun p => p.status)

/-- The transitions the specification allows for a payout status (staying put
included): PENDING may move to PROCESSING or CANCELLED, PROCESSING to
COMPLETED or FAILED, and the terminal states move nowhere. -/
def allowedTransition (s s' : PayoutStatus) : Prop :=
  s' = s ∨
  (s = PayoutStatus.PENDING ∧
    (s' = PayoutStatus.PROCESSING ∨ s' = PayoutStatus.CANCELLED)) ∨
  (s = PayoutStatus.PROCESSING ∧
    (s' = PayoutStatus.COMPLETED ∨ s' = PayoutStatus.FAILED))

/-- Between two database states, every payout present in both moved along an
allowed transition. -/
def StepOk (a b : DB) : Prop :=
  ∀ pid s s', statusIn a.payouts pid = some s → statusIn b.payouts pid = some s' →
    allowedTransition s s'

/-- `StepOk` along every consecutive pair of a write trace. -/
def TraceOk : DB → List DB → Prop
  | _, [] => True
  | a, b :: rest => StepOk a b ∧ TraceOk b rest

theorem find?_id_map (l : List Payout) (f : Payout → Payout)
    (hf : ∀ p, (f p).id = p.id) (pid : Nat) :
    (l.map f).find? (fun p => p.id == pid)
      = (l.find? (fun p => p.id == pid)).map f := by
  induction l with
  | nil => rfl
  | cons x xs ih =>
    simp only [List.map_cons, List.find?]
    rw [hf x]
    cases h : (x.id == pid)
    · simp only [ih]
    · rfl

theorem statusIn_map (l : List Payout) (f : Payout → Payout)
    (hf : ∀ p, (f p).id = p.id) (pid : Nat) :
    statusIn (l.map f) pid
      = (l.find? (fun p => p.id == pid)).map (fun p => (f p).status) := by
  unfold statusIn
  rw [find?_id_map l f hf, Option.map_map]
  rfl

theorem statusIn_found_id (l : List Payout) (pid : Nat) (p : Payout)
    (h : l.find? (fun p => p.id == pid) = some p) : p.id = pid := by
  have := List.find?_some h
  simpa using this

theorem allowedTransition_refl (s : PayoutStatus) : allowedTransition s s :=
  Or.inl rfl

/-- A database write that leaves the payout table unchanged satisfies
`StepOk`. -/
theorem stepOk_same_payouts (a b : DB) (h : b.payouts = a.payouts) : StepOk a b := by
  intro pid s s' h1 h2
  rw [h, h1] at h2
  cases h2
  exact allowedTransition_refl s

/-- Appending a new payout row satisfies `StepOk` (existing payouts are
untouched). -/
theorem stepOk_append (a b : DB) (x : Payout)
    (h : b.payouts = a.payouts ++ [x]) : StepOk a b := by
  intro pid s s' h1 h2
  rw [h] at h2
  unfold statusIn at h1 h2
  rw [List.find?_append] at h2
  obtain ⟨p, hp, rfl⟩ := Option.map_eq_some'.mp h1
  rw [hp] at h2
  simp only [Option.or_some, Option.map_some'] at h2
  cases h2
  exact allowedTransition_refl _

/-- A conditional single-row update (`updateMany`/`update` on `where: { id }`)
satisfies `StepOk` whenever the new status of the row found for `pid` is an
allowed successor. -/
theorem stepOk_condUpdate (a b : DB) (pid : Nat) (g : Payout → Payout)
    (hgid : ∀ p, (g p).id = p.id)
    (hb : b.payouts = a.payouts.map (fun p => if p.id == pid then g p else p))
    (hok : ∀ p, a.payouts.find? (fun p => p.id == pid) = some p →
      allowedTransition p.status ((g p).status)) :
    StepOk a b := by
  intro pid' s s' h1 h2
  have hfid : ∀ p : Payout, ((if p.id == pid then g p else p) : Payout).id = p.id := by
    intro p
    by_cases h : (p.id == pid) = true <;> simp [h, hgid]
  rw [hb] at h2
  rw [statusIn_map _ _ hfid] at h2
  unfold statusIn at h1
  obtain ⟨p, hp, rfl⟩ := Option.map_eq_some'.mp h1
  rw [hp] at h2
  simp only [Option.map_some'] at h2
  injection h2 with h2
  by_cases hc : (p.id == pid) = true
  · rw [if_pos hc] at h2
    have hpe : p.id = pid := by simpa using hc
    have hpe' : p.id = pid' := statusIn_found_id _ _ _ hp
    have hpid : pid' = pid := by omega
    rw [hpid] at hp
    rw [← h2]
    exact hok p hp
  · rw [if_neg hc] at h2
    rw [← h2]
    exact allowedTransition_refl _

theorem findPayout_found_id (db : DB) (pid : Nat) (p : Payout)
    (h : findPayout db pid = some p) : p.id = pid :=
  statusIn_found_id db.payouts pid p h

/-- After the PROCESSING write, the payout found for `pid` is the original one
with status PROCESSING. -/
theorem find?_setPayoutProcessing (db : DB) (pid : Nat) (payout : Payout)
    (hfind : findPayout db pid = some payout) :
    (setPayoutProcessing db pid).payouts.find? (fun p => p.id == pid)
      = some { payout with status := PayoutStatus.PROCESSING } := by
  unfold setPayoutProcessing
  simp only
  rw [find?_id_map _ _ (by
    intro p
    by_cases h : (p.id == pid) = true <;> simp [h])]
  unfold findPayout at hfind
  rw [hfind, Option.map_some']
  have hid : payout.id = pid := statusIn_found_id db.payouts pid payout hfind
  rw [if_pos (by simpa using hid)]

/-- **C7**: the payout lifecycle discipline.  (1) Every write sequence of a
`processPayout` call moves each payout only along allowed transitions
(PENDING→PROCESSING, then PROCESSING→COMPLETED or PROCESSING→FAILED);
(2) `cancelPayout` moves payouts only PENDING→CANCELLED; (3) `requestPayout`
and (4) the refund path never change an existing payout's status; and (5)
calling `processPayout` on an already-COMPLETED payout fails with the
invalid-state error and leaves the database — hence all transaction tagging —
untouched. -/
theorem C7_payout_state_machine :
    (∀ db pid now ok, TraceOk db (processPayoutTrace db pid now ok)) ∧
    (∀ db pid uid adm, StepOk db (cancelPayout db pid uid adm).1) ∧
    (∀ db nid now yr eid amt m, StepOk db (requestPayout db nid now yr eid amt m).1) ∧
    (∀ db nid now tid amt? uf,
      StepOk db ⟨(PaymentService.processRefund db.transactions nid now tid amt? uf).1,
        db.payouts⟩) ∧
    (∀ db pid now ok p, findPayout db pid = some p →
      p.status = PayoutStatus.COMPLETED →
      processPayout db pid now ok
        = (db, Except.error (PayoutError.InvalidPayoutState PayoutStatus.COMPLETED))) := by
  refine ⟨?_, ?_, ?_, ?_, ?_⟩
  · -- processPayout trace
    intro db pid now ok
    unfold processPayoutTrace
    cases hfind : findPayout db pid with
    | none => exact trivial
    | some payout =>
      dsimp only
      by_cases hst : payout.status = PayoutStatus.PENDING
      · rw [if_pos hst]
        have hid : payout.id = pid := findPayout_found_id db pid payout hfind
        have hstep1 : StepOk db (setPayoutProcessing db pid) := by
          apply stepOk_condUpdate db _ pid
            (fun p => { p with status := PayoutStatus.PROCESSING })
            (fun p => rfl) rfl
          intro p hp
          unfold findPayout at hfind
          rw [hfind] at hp
          injection hp with hp
          subst hp
          rw [hst]
          exact Or.inr (Or.inl ⟨rfl, Or.inl rfl⟩)
        have hfound1 := find?_setPayoutProcessing db pid payout hfind
        cases ok
        · simp only [Bool.false_eq_true, if_false]
          refine ⟨hstep1, ?_, trivial⟩
          apply stepOk_condUpdate (setPayoutProcessing db pid) _ pid
            (fun p => { p with
              status := PayoutStatus.FAILED
              notes := (if p.notes = "" then "" else p.notes ++ "\n") ++
                "Failed: " ++ "processing failed" })
            (fun p => rfl) rfl
          intro p hp
          rw [hfound1] at hp
          injection hp with hp
          subst hp
          exact Or.inr (Or.inr ⟨rfl, Or.inr rfl⟩)
        · rw [if_pos rfl]
          refine ⟨hstep1, ?_, trivial⟩
          apply stepOk_condUpdate (setPayoutProcessing db pid) _ pid
            (fun p => { p with
              status := PayoutStatus.COMPLETED
              processedAt := some now })
            (fun p => rfl) rfl
          intro p hp
          rw [hfound1] at hp
          injection hp with hp
          subst hp
          exact Or.inr (Or.inr ⟨rfl, Or.inl rfl⟩)
      · rw [if_neg hst]
        exact trivial
  · -- cancelPayout
    intro db pid uid adm
    unfold cancelPayout
    cases hfind : findPayout db pid with
    | none => exact stepOk_same_payouts _ _ rfl
    | some payout =>
      dsimp only
      by_cases hst : payout.status = PayoutStatus.PENDING
      · rw [if_pos hst]
        by_cases hauth : (!adm && payout.educatorId != uid) = true
        · rw [if_pos hauth]
          exact stepOk_same_payouts _ _ rfl
        · rw [if_neg hauth]
          apply stepOk_condUpdate db _ pid
            (fun p => { p with
              status := PayoutStatus.CANCELLED
              notes := (if p.notes = "" then "" else p.notes ++ "\n") ++ "Cancelled" })
            (fun p => rfl) rfl
          intro p hp
          unfold findPayout at hfind
          rw [hfind] at hp
          injection hp with hp
          subst hp
          rw [hst]
          exact Or.inr (Or.inl ⟨rfl, Or.inr rfl⟩)
      · rw [if_neg hst]
        exact stepOk_same_payouts _ _ rfl
  · -- requestPayout
    intro db nid now yr eid amt m
    unfold requestPayout
    cases hfind : findPendingPayout db eid with
    | some p => exact stepOk_same_payouts _ _ rfl
    | none =>
      dsimp only
      by_cases hbal : (getEducatorPendingEarnings db.transactions eid).pendingAmount < amt
      · rw [if_pos hbal]
        exact stepOk_same_payouts _ _ rfl
      · rw [if_neg hbal]
        exact stepOk_append _ _ _ rfl
  · -- refund path: the payout table is untouched
    intro db nid now tid amt? uf
    exact stepOk_same_payouts _ _ rfl
  · -- idempotence on a COMPLETED payout
    intro db pid now ok p hfind hcomp
    unfold processPayout
    rw [hfind]
    dsimp only
    rw [hcomp]
    rw [if_neg (by decide : ¬(PayoutStatus.COMPLETED = PayoutStatus.PENDING))]

/-- An already-COMPLETED payout, for the C7 witness. -/
def C7payout : Payout :=
  { id := 7
    payoutYear := 2024
    payoutSeq := 1
    educatorId := 1
    amount := 50
    status := PayoutStatus.COMPLETED
    processingFee := 5/2
    paymentMethod := PaymentMethod.bank_transfer
    periodStart := 1
    periodEnd := 2
    requestedAt := 2 }

/-- The database holding only the COMPLETED payout 7. -/
def C7db : DB := { transactions := [], payouts := [C7payout] }

/-- **C7** (witness): re-running `processPayout` on the COMPLETED payout 7
fails with the invalid-state error and changes nothing. -/
theorem C7_payout_state_machine_witness :
    processPayout C7db 7 0 true
      = (C7db, Except.error (PayoutError.InvalidPayoutState PayoutStatus.COMPLETED)) :=
  C7_payout_state_machine.2.2.2.2 C7db 7 0 true C7payout rfl rfl

/-! ### C8: at most one PENDING payout per educator -/

/-- The PENDING payouts of an educator (same predicate as the
`findFirst` guard of `requestPayout`). -/
def pendingFor (l : List Payout) (eid : Nat) : List Payout :=
  l.filter (fun p => decide (p.educatorId = eid ∧ p.status = PayoutStatus.PENDING))

/-- Every educator has at most one PENDING payout. -/
def AtMostOnePending (db : DB) : Prop :=
  ∀ eid, (pendingFor db.payouts eid).length ≤ 1

/-- The reachable database states: starting from empty, any write to the
transaction table alone (`processPayment` / `processRefund` never touch
payouts), and the three payout operations. -/
inductive Reached : DB → Prop
  | init : Reached { transactions := [], payouts := [] }
  | ledgerWrite (db : DB) (txs : List Transaction) (h : Reached db) :
      Reached { transactions := txs, payouts := db.payouts }
  | request (db : DB) (nid now yr eid : Nat) (amt : ℚ) (m : PaymentMethod)
      (h : Reached db) : Reached (requestPayout db nid now yr eid amt m).1
  | process (db : DB) (pid now : Nat) (ok : Bool) (h : Reached db) :
      Reached (processPayout db pid now ok).1
  | cancel (db : DB) (pid uid : Nat) (adm : Bool) (h : Reached db) :
      Reached (cancelPayout db pid uid adm).1

/-- A row update that never produces a PENDING row cannot increase the number
of PENDING payouts of any educator. -/
theorem pendingFor_map_le (l : List Payout) (f : Payout → Payout)
    (hf : ∀ p, (f p).status = PayoutStatus.PENDING → f p = p) (eid : Nat) :
    (pendingFor (l.map f) eid).length ≤ (pendingFor l eid).length := by
  induction l with
  | nil => exact Nat.le_refl _
  | cons x xs ih =>
    unfold pendingFor at ih ⊢
    rw [List.map_cons, List.filter_cons, List.filter_cons]
    by_cases hx : (decide ((f x).educatorId = eid ∧ (f x).status = PayoutStatus.PENDING)) = true
    · have hfx : f x = x := hf x (((decide_eq_true_eq).mp hx).2)
      rw [if_pos hx, hfx, if_pos (by rw [← hfx]; exact hx)]
      simpa using ih
    · rw [if_neg hx]
      by_cases hx2 : (decide (x.educatorId = eid ∧ x.status = PayoutStatus.PENDING)) = true
      · rw [if_pos hx2]
        exact le_trans ih (by simp)
      · rw [if_neg hx2]
        exact ih

/-- The single-row conditional updates used by the payout operations satisfy
the premise of `pendingFor_map_le` when the new status is not PENDING. -/
theorem condUpdate_pending_fix (pid : Nat) (g : Payout → Payout)
    (hg : ∀ p, (g p).status ≠ PayoutStatus.PENDING) :
    ∀ p : Payout, ((if p.id == pid then g p else p) : Payout).status = PayoutStatus.PENDING →
      (if p.id == pid then g p else p) = p := by
  intro p hp
  by_cases hc : (p.id == pid) = true
  · rw [if_pos hc] at hp ⊢
    exact absurd hp (hg p)
  · rw [if_neg hc]

theorem processPayout_pendingFor_le (db : DB) (pid now : Nat) (ok : Bool) (eid : Nat) :
    (pendingFor (processPayout db pid now ok).1.payouts eid).length
      ≤ (pendingFor db.payouts eid).length := by
  unfold processPayout
  cases hfind : findPayout db pid with
  | none => exact Nat.le_refl _
  | some payout =>
    dsimp only
    by_cases hst : payout.status = PayoutStatus.PENDING
    · rw [if_pos hst]
      cases ok
      · rw [if_neg Bool.false_ne_true]
        refine le_trans
          (pendingFor_map_le _ _ (condUpdate_pending_fix pid _
            (fun p h => PayoutStatus.noConfusion h)) eid)
          (pendingFor_map_le _ _ (condUpdate_pending_fix pid _
            (fun p h => PayoutStatus.noConfusion h)) eid)
      · rw [if_pos rfl]
        refine le_trans
          (pendingFor_map_le _ _ (condUpdate_pending_fix pid _
            (fun p h => PayoutStatus.noConfusion h)) eid)
          (pendingFor_map_le _ _ (condUpdate_pending_fix pid _
            (fun p h => PayoutStatus.noConfusion h)) eid)
    · rw [if_neg hst]

theorem cancelPayout_pendingFor_le (db : DB) (pid uid : Nat) (adm : Bool) (eid : Nat) :
    (pendingFor (cancelPayout db pid uid adm).1.payouts eid).length
      ≤ (pendingFor db.payouts eid).length := by
  unfold cancelPayout
  cases hfind : findPayout db pid with
  | none => exact Nat.le_refl _
  | some payout =>
    dsimp only
    by_cases hst : payout.status = PayoutStatus.PENDING
    · rw [if_pos hst]
      by_cases hauth : (!adm && payout.educatorId != uid) = true
      · rw [if_pos hauth]
      · rw [if_neg hauth]
        exact pendingFor_map_le _ _ (condUpdate_pending_fix pid _
          (fun p h => PayoutStatus.noConfusion h)) eid
    · rw [if_neg hst]

theorem requestPayout_atMost (db : DB) (nid now yr eid' : Nat) (amt : ℚ)
    (m : PaymentMethod) (h : AtMostOnePending db) :
    AtMostOnePending (requestPayout db nid now yr eid' amt m).1 := by
  unfold requestPayout
  cases hfind : findPendingPayout db eid' with
  | some p => exact h
  | none =>
    dsimp only
    by_cases hbal : (getEducatorPendingEarnings db.transactions eid').pendingAmount < amt
    · rw [if_pos hbal]
      exact h
    · rw [if_neg hbal]
      intro eid
      unfold pendingFor
      rw [List.filter_append]
      have hempty : ∀ x ∈ db.payouts,
          ¬((fun p => decide (p.educatorId = eid' ∧ p.status = PayoutStatus.PENDING)) x
            = true) :=
        List.find?_eq_none.mp hfind
      by_cases hnew : eid = eid'
      · subst hnew
        have : db.payouts.filter
            (fun p => decide (p.educatorId = eid ∧ p.status = PayoutStatus.PENDING)) = [] :=
          List.filter_eq_nil_iff.mpr hempty
        rw [this]
        simp
      · rw [List.filter_cons, List.filter_nil,
          if_neg (by
            simp only [decide_eq_true_eq, not_and]
            intro he
            exact absurd he.symm hnew),
          List.append_nil]
        exact h eid

theorem reached_atMostOnePending (db : DB) (h : Reached db) : AtMostOnePending db := by
  induction h with
  | init => intro eid; simp [pendingFor]
  | ledgerWrite db txs h ih => exact ih
  | request db nid now yr eid amt m h ih => exact requestPayout_atMost db nid now yr eid amt m ih
  | process db pid now ok h ih =>
    intro eid
    exact le_trans (processPayout_pendingFor_le db pid now ok eid) (ih eid)
  | cancel db pid uid adm h ih =>
    intro eid
    exact le_trans (cancelPayout_pendingFor_le db pid uid adm eid) (ih eid)

/-- A request against an educator with no PENDING payout and sufficient
balance succeeds. -/
theorem requestPayout_ok (db : DB) (nid now yr eid : Nat) (amt : ℚ) (m : PaymentMethod)
    (hnone : findPendingPayout db eid = none)
    (hbal : amt ≤ (getEducatorPendingEarnings db.transactions eid).pendingAmount) :
    ∃ q', (requestPayout db nid now yr eid amt m).2 = Except.ok q' := by
  unfold requestPayout
  rw [hnone]
  dsimp only
  rw [if_neg (not_lt.mpr hbal)]
  exact ⟨_, rfl⟩

/-- The database written by a successful `cancelPayout`. -/
theorem cancelPayout_success (db : DB) (pid uid : Nat) (adm : Bool) (q : Payout)
    (hfind : findPayout db pid = some q) (hst : q.status = PayoutStatus.PENDING)
    (hauth : adm = true ∨ q.educatorId = uid) :
    (cancelPayout db pid uid adm).1
      = { transactions := db.transactions
          payouts := db.payouts.map (fun p =>
            if p.id == pid then
              { p with
                status := PayoutStatus.CANCELLED
                notes := (if p.notes = "" then "" else p.notes ++ "\n") ++ "Cancelled" }
            else p) } := by
  unfold cancelPayout
  rw [hfind]
  dsimp only
  rw [if_pos hst]
  have hauthb : (!adm && q.educatorId != uid) = false := by
    cases hauth with
    | inl h => rw [h]; rfl
    | inr h => simp [h]
  rw [hauthb, if_neg Bool.false_ne_true]

/-- **C8**: (1) `requestPayout` fails with the existing-pending-payout error
whenever the educator already has a PENDING payout; (2) in every reachable
database state each educator has at most one PENDING payout; (3) after the
educator's only PENDING payout is cancelled, a new request with sufficient
balance succeeds. -/
theorem C8_single_pending_payout :
    (∀ db nid now yr eid amt m p, findPendingPayout db eid = some p →
      requestPayout db nid now yr eid amt m
        = (db, Except.error PayoutError.ExistingPendingPayout)) ∧
    (∀ db, Reached db → AtMostOnePending db) ∧
    (∀ db pid uid adm eid nid now yr amt m q,
      findPayout db pid = some q → q.status = PayoutStatus.PENDING →
      (adm = true ∨ q.educatorId = uid) →
      (∀ p ∈ db.payouts, p.status = PayoutStatus.PENDING → p.educatorId = eid →
        p.id = pid) →
      amt ≤ (getEducatorPendingEarnings db.transactions eid).pendingAmount →
      ∃ q', (requestPayout (cancelPayout db pid uid adm).1 nid now yr eid amt m).2
        = Except.ok q') := by
  refine ⟨?_, reached_atMostOnePending, ?_⟩
  · intro db nid now yr eid amt m p hp
    unfold requestPayout
    rw [hp]
  · intro db pid uid adm eid nid now yr amt m q hfind hst hauth honly hbal
    rw [cancelPayout_success db pid uid adm q hfind hst hauth]
    apply requestPayout_ok
    · unfold findPendingPayout
      dsimp only
      apply List.find?_eq_none.mpr
      intro p' hp'
      obtain ⟨p, hpmem, rfl⟩ := List.mem_map.mp hp'
      by_cases hc : (p.id == pid) = true
      · rw [if_pos hc]
        simp only [decide_eq_true_eq, not_and]
        intro _
        exact fun h => absurd h (by decide)
      · rw [if_neg hc]
        simp only [decide_eq_true_eq, not_and]
        intro heid hpend
        exact absurd (honly p hpmem hpend heid) (by simpa using hc)
    · exact hbal

/-- The ledger before the C8 request: one unsettled payment with earnings 80. -/
def C8dbPre : DB :=
  { transactions := [samplePayment 1 100 20 80 1], payouts := [] }

/-- The PENDING payout of the C8 witness, exactly as `requestPayout` creates
it on `C8dbPre` (id 7, amount 50, requested at time 2). -/
def C8payout : Payout :=
  { id := 7
    payoutYear := 2024
    payoutSeq := 1
    educatorId := 1
    amount := 50
    status := PayoutStatus.PENDING
    processingFee := 5/2
    paymentMethod := PaymentMethod.bank_transfer
    periodStart := 1
    periodEnd := 2
    requestedAt := 2 }

/-- The C8 witness state: the ledger plus the PENDING payout 7. -/
def C8db : DB :=
  { transactions := [samplePayment 1 100 20 80 1], payouts := [C8payout] }

/-- **C8** (witness): on the concrete reachable state `C8db`, a second request
is rejected with the existing-pending-payout error; the invariant holds; and
after educator 1 cancels payout 7, a request for 40 (≤ the balance 80)
succeeds. -/
theorem C8_single_pending_payout_witness :
    requestPayout C8db 11 300 2024 1 40 PaymentMethod.bank_transfer
      = (C8db, Except.error PayoutError.ExistingPendingPayout) ∧
    AtMostOnePending C8db ∧
    (∃ q', (requestPayout (cancelPayout C8db 7 1 false).1 11 300 2024 1 40
        PaymentMethod.bank_transfer).2 = Except.ok q') := by
  refine ⟨C8_single_pending_payout.1 C8db 11 300 2024 1 40 PaymentMethod.bank_transfer
    C8payout rfl, ?_, ?_⟩
  · apply C8_single_pending_payout.2.1
    have h0 : Reached C8dbPre :=
      Reached.ledgerWrite { transactions := [], payouts := [] }
        [samplePayment 1 100 20 80 1] Reached.init
    have h1 := Reached.request C8dbPre 7 2 2024 1 50 PaymentMethod.bank_transfer h0
    have heq : (requestPayout C8dbPre 7 2 2024 1 50 PaymentMethod.bank_transfer).1
        = C8db := by
      simp +decide [C8dbPre, C8db, requestPayout, findPendingPayout,
        getEducatorPendingEarnings, matchesPendingWhere, samplePayment,
        calculateProcessingFee, C8payout, List.min?]
    rwa [heq] at h1
  · refine C8_single_pending_payout.2.2 C8db 7 1 false 1 11 300 2024 40
      PaymentMethod.bank_transfer C8payout rfl rfl (Or.inr rfl) ?_ ?_
    · intro p hp _ _
      simp only [C8db, List.mem_singleton] at hp
      subst hp
      rfl
    · simp +decide [C8db, getEducatorPendingEarnings, matchesPendingWhere, samplePayment]

end ELearn
